import Mathlib

/-!
# Verification of the Dataman S4 control client

A shallow embedding, in Lean 4, of the protocol logic of the two Python
sources of this repository:

* `dms4util.py` — pexpect-based client (class `DatamanS4`),
* `dataman_s4_load_ram.py` — pyserial-based client (class `DatamanS4`).

Bytes are modelled as `Nat` (values 0..255 in all uses), byte strings as
`List Nat`, and the serial transport as an explicit state (`Serial`)
holding the sequence of byte strings that successive blocking reads
return (each read's result is device-chosen, so theorems quantify over
every possible device behaviour), the mutable per-read timeout, and the
trace of written chunks.  Fallible protocol steps return
`Except CommError`.
-/

/-- The byte values (ASCII codes) of a Lean string literal; used to
transcribe the byte-string literals of the Python sources. -/
def asciiBytes (s : String) : List Nat :=
  s.toList.map Char.toNat

/-- Is the byte an uppercase hexadecimal digit, i.e. does it match the
regex character class of digits and letters A through F used throughout
both sources? -/
def isHexUp (b : Nat) : Bool :=
  (48 ≤ b && b ≤ 57) || (65 ≤ b && b ≤ 70)

/-- The ASCII code of the uppercase hexadecimal digit for `d < 16`,
as produced by Python's `X` format conversion. -/
def hexDigitChar (d : Nat) : Nat :=
  if d < 10 then 48 + d else 55 + d

/-- Fuel-driven most-significant-first base-16 digit expansion; the fuel
only bounds the recursion depth and `n + 1` is always enough. -/
def hexDigitsAux : Nat → Nat → List Nat
  | 0, _ => []
  | fuel + 1, n =>
    if n < 16 then [hexDigitChar n]
    else hexDigitsAux fuel (n / 16) ++ [hexDigitChar (n % 16)]

/-- The uppercase hexadecimal digit string of `n`, as Python's
`format(n, 'X')` produces it (no padding). -/
def hexDigits (n : Nat) : List Nat :=
  hexDigitsAux (n + 1) n

/-- Python's `f'{n:05X}'`: the uppercase hexadecimal digits of `n`,
zero-padded on the left to at least five characters.  Both sources use
this format for the 5-digit address fields. -/
def hex5 (n : Nat) : List Nat :=
  List.replicate (5 - (hexDigits n).length) 48 ++ hexDigits n

/-- Numeric value of one uppercase hexadecimal digit byte
(Python `int(c, 16)`). -/
def hexVal (b : Nat) : Nat :=
  if b ≤ 57 then b - 48 else b - 55

/-- Numeric value of an uppercase hexadecimal digit byte string
(Python `int(s, 16)`). -/
def hexListVal (bs : List Nat) : Nat :=
  bs.foldl (fun acc b => 16 * acc + hexVal b) 0

/-! ## The pexpect "expect" primitive of `dms4util.py`

`DatamanS4._expect` (dms4util.py lines 68–73) calls
`self.exp.expect(expected, ...)` — which searches the accumulated input
buffer for the leftmost position where the compiled pattern matches —
and then runs `assert self.exp.before == b''`: the bytes preceding the
matched region must be empty, i.e. the match must begin at the buffer's
start.  We model the pattern abstractly as a single-position matcher
(what the `re` engine does at one starting offset) and re-implement the
leftmost search on top of it. -/

/-- A single-position matcher: given the suffix of the buffer starting
at some position, return the matched region together with its captured
groups when the pattern matches there, else `none`. -/
def MatcherAt : Type :=
  List Nat → Option (List Nat × List (List Nat))

/-- Leftmost search, as the `re` engine performs it for
`pexpect.expect`: try the matcher at offset 0, 1, 2, … of the buffer and
return the first offset where it matches, with the match data. -/
def reSearch (m : MatcherAt) : List Nat → Option (Nat × (List Nat × List (List Nat)))
  | [] => (m []).map fun r => (0, r)
  | b :: rest =>
    match m (b :: rest) with
    | some r => some (0, r)
    | none => (reSearch m rest).map fun p => (p.1 + 1, p.2)

/-- Outcome of one `DatamanS4._expect` call: either the pattern matched
at the very start of the buffer and the captured groups are available to
the caller, or the deadline elapsed with no match anywhere
(pexpect raises `TIMEOUT`), or the leftmost match left nonempty
preceding bytes and the `assert self.exp.before == b''` fails — the
stray-leading-bytes protocol error, carrying the offending bytes. -/
inductive ExpectResult where
  | matched (groups : List (List Nat)) : ExpectResult
  | timedOut : ExpectResult
  | unexpectedResponse (before : List Nat) : ExpectResult
deriving DecidableEq

/-- `DatamanS4._expect` of dms4util.py on the final accumulated buffer:
leftmost search, then the anchoring assertion that nothing precedes the
match. -/
def expectCall (m : MatcherAt) (buffer : List Nat) : ExpectResult :=
  match reSearch m buffer with
  | none => .timedOut
  | some (i, r) => if i = 0 then .matched r.2 else .unexpectedResponse (buffer.take i)

/-- The `'\r\n>'` prompt pattern of `DatamanS4.__init__` (dms4util.py
line 58), as a single-position matcher: it matches exactly when the
suffix starts with the three bytes CR LF `>` and captures nothing. -/
def promptMatcher : MatcherAt := fun bs =>
  if bs.take 3 = [13, 10, 62] then some ([13, 10, 62], []) else none

/-! ## The protocol error type -/

/-- Protocol-level failures of `dataman_s4_load_ram.py`
(`CommunicationError`), split by the shape of the message the code
attaches: `unexpectedResponse` carries the offending raw bytes,
`notFound` is the file-format exhaustion error, `syncFailed` is the
synchronization failure with its operator guidance. -/
inductive CommError where
  | unexpectedResponse (response : List Nat) : CommError
  | notFound : CommError
  | syncFailed (msg : String) : CommError
deriving DecidableEq

/-! ## The serial transport state

Wraps the methods `read`, `readline`, `read_until` and `write` of class
`DatamanS4` of dataman_s4_load_ram.py (lines 97–118).  `incoming` holds,
in order, the byte string each successive blocking read call returns
(empty models a read that timed out with no data); `timeout` is the
mutable per-read timeout `self.serial.timeout`; `sent` is the trace of
chunks passed to `write`. -/
structure Serial where
  incoming : List (List Nat)
  timeout : ℚ
  sent : List (List Nat)
deriving DecidableEq

/-- `self.read(size)`: `serial.read` returns at most `size` bytes
(fewer when the timeout elapses first). -/
def sread (size : Nat) (s : Serial) : List Nat × Serial :=
  match s.incoming with
  | [] => ([], s)
  | r :: rest => (r.take size, { s with incoming := rest })

/-- `self.readline()`: one line from the device, or a partial line or
empty result when the timeout elapses first. -/
def sreadline (s : Serial) : List Nat × Serial :=
  match s.incoming with
  | [] => ([], s)
  | r :: rest => (r, { s with incoming := rest })

/-- `self.read_until(expected, size)`: bytes up to and including the
terminator, or up to `size` bytes, or whatever arrived before the
timeout. -/
def sreadUntil (expected : List Nat) (size : Nat) (s : Serial) : List Nat × Serial :=
  match s.incoming with
  | [] => ([], s)
  | r :: rest => (r, { s with incoming := rest })

/-- `self.write(command)` followed by `self.serial.flush()`: records the
chunk on the wire trace. -/
def swrite (b : List Nat) (s : Serial) : Serial :=
  { s with sent := s.sent ++ [b] }

/-! ## Synchronization (`DatamanS4.__init__`, dataman_s4_load_ram.py lines 60–68)

After the interrupt byte and a carriage return are written, the
constructor loops `while line := self.readline():`, setting
`synchronized = True` whenever a line equals `b'>'`; the loop ends at
the first empty read (the per-read timeout elapsed with no further
input), and a never-set flag raises `CommunicationError`. -/

/-- The read loop: `lines` are the successive `readline` results the
device produces (an empty entry is a timed-out read, which ends the
loop; exhausting the list is likewise the final timed-out read). -/
def drainLines : List (List Nat) → Bool → Bool
  | [], found => found
  | line :: rest, found =>
    if line = [] then found else drainLines rest (found || (line == [62]))

/-- The synchronization message of dataman_s4_load_ram.py line 67. -/
def syncAdvice : String :=
  "Could not synchronize with Dataman S4.  Try pressing the orange ESC key on it."

/-- The synchronization step of `DatamanS4.__init__`: returns the
chunks written (the interrupt byte `0x1B`, then a carriage return) and
the outcome of the drain loop. -/
def synchronize (lines : List (List Nat)) : List (List Nat) × Except CommError Unit :=
  ([[27], [13]],
   if drainLines lines false then Except.ok ()
   else Except.error (CommError.syncFailed syncAdvice))

/-- The synchronization step of `DatamanS4.__init__` in dms4util.py
(lines 54–58): after the escape byte, the delay, the input-buffer flush
and the carriage return, `self._expect('\r\n>')` runs on the input that
accumulates afterwards — the anchored pexpect expectation of the prompt
bytes, not a scan of whole lines. -/
def dms4_sync (buffer : List Nat) : ExpectResult :=
  expectCall promptMatcher buffer

theorem drainLines_eq (lines : List (List Nat)) (found : Bool) :
    drainLines lines found
      = (found || (lines.takeWhile (fun l => l != [])).any (fun l => l == [62])) := by
  induction lines generalizing found with
  | nil => simp [drainLines]
  | cons line rest ih =>
    by_cases h : line = ([] : List Nat)
    · simp [drainLines, h, List.takeWhile]
    · simp only [drainLines, if_neg h, ih, List.takeWhile]
      have hne : (line != ([] : List Nat)) = true := by
        simpa using h
      simp [hne, Bool.or_assoc]

/-! ## File formats (`DatamanS4.FileFormat`, dataman_s4_load_ram.py lines 168–174) -/

/-- The closed enumeration of file formats the Dataman S4 knows. -/
inductive FileFormat where
  | ASCII : FileFormat
  | INTEL : FileFormat
  | MOTOROLA : FileFormat
  | TEKHEX : FileFormat
  | BINARY : FileFormat
deriving DecidableEq

/-- The 9-byte token the device echoes for each format (the `StrEnum`
values of the source, each a carriage return followed by an 8-character
name field). -/
def FileFormat.value : FileFormat → List Nat
  | .ASCII => asciiBytes "\rASCII   "
  | .INTEL => asciiBytes "\rINTEL   "
  | .MOTOROLA => asciiBytes "\rMOTOROLA"
  | .TEKHEX => asciiBytes "\rTEK HEX "
  | .BINARY => asciiBytes "\rBINARY  "

/-- All members of the enumeration, as iterated by
`for file_format in self.FileFormat` when the source builds
`all_file_formats`. -/
def allFileFormats : List FileFormat :=
  [.ASCII, .INTEL, .MOTOROLA, .TEKHEX, .BINARY]

/-! ## File-format selection (`DatamanS4.set_file_format`, lines 176–207) -/

/-- The candidate-cycling loop of `set_file_format`
(`for _try_count in range(len(all_file_formats))`): at each iteration
read the 9-byte token currently offered; if it is the requested one,
commit with a carriage return and require the `'\r\n>'` reply; if it is
not even a known token, cancel with the interrupt byte and fail with the
unexpected-response error (which the source builds from the still-bound
framing-line variable `response`, threaded here as `framing`); otherwise
write a space to advance to the next candidate.  Exhausting the
iterations fails with the not-found error. -/
def ffLoop (ff : FileFormat) (framing : List Nat) : Nat → Serial → Except CommError Unit × Serial
  | 0, s => (.error .notFound, s)
  | fuel + 1, s =>
    let rd := sread 9 s
    if rd.1 = ff.value then
      let ru := sreadUntil [62] 32 (swrite [13] rd.2)
      if ru.1 = [13, 10, 62] then (.ok (), ru.2)
      else (.error (.unexpectedResponse ru.1), ru.2)
    else if rd.1 ∈ allFileFormats.map FileFormat.value then
      ffLoop ff framing fuel (swrite [32] rd.2)
    else
      (.error (.unexpectedResponse framing), swrite [27] rd.2)

/-- `DatamanS4.set_file_format`: invoke `FF`, require the exact framing
line `b'FF\r>FILE FORMAT\r\n'`, then cycle through at most
`len(all_file_formats)` candidates. -/
def set_file_format (ff : FileFormat) (s : Serial) : Except CommError Unit × Serial :=
  let rl := sreadline (swrite [70, 70] s)
  if rl.1 = asciiBytes "FF\r>FILE FORMAT\r\n" then
    ffLoop ff rl.1 allFileFormats.length rl.2
  else
    (.error (.unexpectedResponse rl.1), rl.2)

/-! ## Address-range negotiation (`DatamanS4._set_start_end`, lines 209–229) -/

/-- `re.fullmatch(b'([0-9A-F]{5}),([0-9A-F]{5}),\x08 \x08{12}', response)`:
the 26-byte placeholder the device echoes after a command that prompts
for a range — two 5-digit uppercase-hex fields each followed by a comma,
a backspace, a space, and twelve backspaces. -/
def parmsEchoOk (r : List Nat) : Bool :=
  r.length = 26 && (r.take 5).all isHexUp && ((r.drop 5).take 1 == [44]) &&
    ((r.drop 6).take 5).all isHexUp &&
    ((r.drop 11).take 3 == [44, 8, 32]) && ((r.drop 14) == List.replicate 12 8)

/-- `DatamanS4._set_start_end`: read the 26-byte placeholder and require
its exact shape; write the ten bytes `f'{start:05X}{end:05X}'` in a
single `write`; read back exactly `len(expected)` bytes and require them
to equal `f'{start:05X},{end:05X}\x08'`; any deviation raises the
unexpected-response error carrying the offending bytes. -/
def set_start_end (start endAddr : Nat) (s : Serial) : Except CommError Unit × Serial :=
  let rd := sread 26 s
  if parmsEchoOk rd.1 then
    let s1 := swrite (hex5 start ++ hex5 endAddr) rd.2
    let expected := hex5 start ++ [44] ++ hex5 endAddr ++ [8]
    let re2 := sread expected.length s1
    if re2.1 = expected then (.ok (), re2.2)
    else (.error (.unexpectedResponse re2.1), re2.2)
  else
    (.error (.unexpectedResponse rd.1), rd.2)

/-! ## Session state (`DatamanS4.__init__`, lines 70–71)

Created from the device-information query: the native start and end
addresses of the attached device. -/

structure Session where
  start : Nat
  endAddr : Nat
deriving DecidableEq

/-! ## Binary receive (`DatamanS4.set_ram`, lines 231–264) -/

/-- `DatamanS4.set_ram`: default `start` to the device's native start
address; compute `end = start + len(data) - 1`; select the BINARY file
format; invoke `RE` and require the exact framing line; negotiate the
range; send a carriage return and require its one-byte echo; write the
data; then, with the per-read timeout raised to 80 seconds for this one
read and restored immediately after, require the `'\r\n>'` completion
reply. -/
def set_ram (sess : Session) (data : List Nat) (start? : Option Nat) (s : Serial) :
    Except CommError Unit × Serial :=
  let start := start?.getD sess.start
  let endAddr := start + data.length - 1
  let ffr := set_file_format .BINARY s
  match ffr.1 with
  | .error e => (.error e, ffr.2)
  | .ok _ =>
    let rl := sreadline (swrite [82, 69] ffr.2)
    if rl.1 = asciiBytes "RE\r>RECEIVE BINARY  \r\n" then
      let sse := set_start_end start endAddr rl.2
      match sse.1 with
      | .error e => (.error e, sse.2)
      | .ok _ =>
        let rb := sread 1 (swrite [13] sse.2)
        if rb.1 = [13] then
          let s4 := swrite data rb.2
          let oldTimeout := s4.timeout
          let ru := sreadUntil [62] 32 { s4 with timeout := 80 }
          let s5 := { ru.2 with timeout := oldTimeout }
          if ru.1 = [13, 10, 62] then (.ok (), s5)
          else (.error (.unexpectedResponse ru.1), s5)
        else (.error (.unexpectedResponse rb.1), rb.2)
    else (.error (.unexpectedResponse rl.1), rl.2)

/-! ## RAM checksum (`DatamanS4.get_ram_checksum`, lines 266–305) -/

/-- `re.fullmatch(b'SUM = ([0-9A-F]{8})\r\n>', response)` followed by
`int(match.group(1), 16)`: the parsed 32-bit checksum when the reply has
exactly the documented 17-byte shape, else `none`. -/
def parseChecksum (r : List Nat) : Option Nat :=
  if r.length = 17 && (r.take 6 == asciiBytes "SUM = ") &&
      ((r.drop 6).take 8).all isHexUp && ((r.drop 14) == [13, 10, 62]) then
    some (hexListVal ((r.drop 6).take 8))
  else
    none

/-- `DatamanS4.get_ram_checksum`: default `start`/`end` to the device's
native range; invoke `CH` and require the exact framing line; negotiate
the range; send a carriage return to start the checksumming; with the
per-read timeout raised to 30 seconds for this one read and restored
immediately after, require the `b'\r\r\n'` acknowledgement line; then
read up to the prompt and parse the `SUM = XXXXXXXX` reply, failing with
the unexpected-response error on any other shape. -/
def get_ram_checksum (sess : Session) (start? end? : Option Nat) (s : Serial) :
    Except CommError Nat × Serial :=
  let start := start?.getD sess.start
  let endAddr := end?.getD sess.endAddr
  let rl := sreadline (swrite [67, 72] s)
  if rl.1 = asciiBytes "CH\r>CHECKSUM RAM\r\n" then
    let sse := set_start_end start endAddr rl.2
    match sse.1 with
    | .error e => (.error e, sse.2)
    | .ok _ =>
      let s1 := swrite [13] sse.2
      let oldTimeout := s1.timeout
      let ra := sreadline { s1 with timeout := 30 }
      let s2 := { ra.2 with timeout := oldTimeout }
      if ra.1 = [13, 13, 10] then
        let ru := sreadUntil [62] 32 s2
        match parseChecksum ru.1 with
        | some v => (.ok v, ru.2)
        | none => (.error (.unexpectedResponse ru.1), ru.2)
      else (.error (.unexpectedResponse ra.1), s2)
  else (.error (.unexpectedResponse rl.1), rl.2)

/-! ## Checksum verification in the two `main` functions -/

/-- `data_checksum = sum(data) & 0xFFFFFFFF`
(dataman_s4_load_ram.py line 352). -/
def data_checksum (data : List Nat) : Nat :=
  data.sum &&& 0xFFFFFFFF

/-- Outcome of the verification step of `main` in
dataman_s4_load_ram.py: either full success (exit code 0) or the
data-integrity report of lines 356–360 (a printed checksum-mismatch
diagnostic and exit code 1), which is distinct from every
`CommunicationError` raise. -/
inductive VerifyOutcome where
  | ok : VerifyOutcome
  | checksumMismatch (ramChecksum dataChecksum : Nat) : VerifyOutcome
deriving DecidableEq

/-- The verification step of `main` in dataman_s4_load_ram.py
(lines 352–361): compare the masked local sum with the device-reported
checksum. -/
def verifyChecksum (data : List Nat) (ramChecksum : Nat) : VerifyOutcome :=
  if data_checksum data ≠ ramChecksum then .checksumMismatch ramChecksum (data_checksum data)
  else .ok

/-- The verification step of `main` in dms4util.py (lines 219–222):
`chksum = sum(data_to)` with no masking, then
`assert chksum == s4.checksum_mem()` — the assertion passes exactly when
the raw, unreduced sum equals the device-reported checksum. -/
def dms4VerifyOk (data : List Nat) (ramChecksum : Nat) : Bool :=
  data.sum == ramChecksum

/-! ## Checksum timeouts -/

/-- `DatamanS4._get_checksum` of dms4util.py (lines 118–123): the
deadline handed to the final expect is
`self.exp.timeout + size * 21 / self.S4_MEM_SIZE`, with
`S4_MEM_SIZE = 512 * 1024` (a measured just-under-21-seconds for a full
512 KiB checksum). -/
def dms4GetChecksumTimeout (base : ℚ) (size : Nat) : ℚ :=
  base + (size : ℚ) * 21 / (512 * 1024)

/-- The per-read timeout `DatamanS4.get_ram_checksum` of
dataman_s4_load_ram.py installs for the checksum acknowledgement read
(`self.serial.timeout = 30`, line 288): a fixed 30 seconds, with no
dependence on the range size. -/
def loadRamChecksumTimeout : ℚ := 30

/-- The size of an inclusive address range, as both sources compute it
(`end - start + 1`). -/
def rangeSize (start endAddr : Nat) : Nat :=
  endAddr - start + 1

/-! ## Per-character address-range negotiation
(`DatamanS4._set_start_end`, dms4util.py lines 132–147)

The pexpect variant deliberately transmits the ten address digits one
character at a time, expecting each echo before the next send, because
the S4 would occasionally drop characters under burst writes.  We embed
it as the sequence of wire events it performs: each `_send` emits a
`sent` event and each `_expect` emits an `expected` event carrying the
pattern.  Whether a given `_expect` call succeeds depends on the bytes
the device produces; the embedding draws each call's success from an
oracle and aborts (as the raised exception does) at the first failure. -/

/-- The patterns `_set_start_end` of dms4util.py passes to `_expect`:
the 26-byte range placeholder regex
`'^\r\n[0-9A-F]{5},[0-9A-F]{5},\x08 \x08{12}'`, and literal patterns
with (`'^…'`) or without a leading start-of-buffer anchor. -/
inductive Pat where
  | startEndPlaceholder : Pat
  | lit (anchored : Bool) (bytes : List Nat) : Pat
deriving DecidableEq

/-- One wire event of the pexpect client: a chunk handed to `_send`, or
an `_expect` call on a pattern. -/
inductive Event where
  | sent (bytes : List Nat) : Event
  | expected (p : Pat) : Event
deriving DecidableEq

/-- State of the trace-producing run: the success oracle for the
remaining `_expect` calls, and the events performed so far. -/
structure PexpSt where
  oracle : List Bool
  trace : List Event
deriving DecidableEq

/-- `self._send(to_send)`. -/
def doSend (bs : List Nat) (st : PexpSt) : PexpSt :=
  ⟨st.oracle, st.trace ++ [.sent bs]⟩

/-- `self._expect(p)`: consult the oracle for this call's success; a
failed expect raises, aborting the whole negotiation. -/
def doExpect (p : Pat) (st : PexpSt) : Option PexpSt :=
  match st.oracle with
  | [] => none
  | ok :: rest => if ok then some ⟨rest, st.trace ++ [.expected p]⟩ else none

/-- The digit loop `for each_ch in to_send: self._send(each_ch);
self._expect(f'^{each_ch}')`: each digit is sent and its individually
anchored echo expected before the next digit is touched. -/
def sendDigits : List Nat → PexpSt → Option PexpSt
  | [], st => some st
  | c :: cs, st => (doExpect (.lit true [c]) (doSend [c] st)).bind (sendDigits cs)

/-- `DatamanS4._set_start_end` of dms4util.py: expect the placeholder;
send the five start digits one at a time, each followed by its anchored
echo; expect the comma; send the five end digits the same way; expect
the anchored backspace; finally send a carriage return and expect its
anchored echo, which starts the operation. -/
def dms4_set_start_end (memStart memEnd : Nat) (oracle : List Bool) : Option (List Event) :=
  (doExpect .startEndPlaceholder ⟨oracle, []⟩).bind fun st =>
  (sendDigits (hex5 memStart) st).bind fun st =>
  (doExpect (.lit false [44]) st).bind fun st =>
  (sendDigits (hex5 memEnd) st).bind fun st =>
  (doExpect (.lit true [8]) st).bind fun st =>
  (doExpect (.lit true [13]) (doSend [13] st)).map fun st => st.trace

/-- The event block one digit contributes: its send, then its anchored
echo expectation. -/
def digitEvents (ds : List Nat) : List Event :=
  ds.flatMap fun c => [.sent [c], .expected (.lit true [c])]

/-! ## Helper lemmas -/

theorem hexDigitsAux_length_le (k : Nat) :
    ∀ (fuel n : Nat), n < 16 ^ (k + 1) → (hexDigitsAux fuel n).length ≤ k + 1 := by
  induction k with
  | zero =>
    intro fuel n h
    cases fuel with
    | zero => simp [hexDigitsAux]
    | succ fuel =>
      have h16 : n < 16 := by simpa using h
      simp [hexDigitsAux, if_pos h16]
  | succ k ih =>
    intro fuel n h
    cases fuel with
    | zero => simp [hexDigitsAux]
    | succ fuel =>
      by_cases h16 : n < 16
      · simp [hexDigitsAux, if_pos h16]
      · have hdiv : n / 16 < 16 ^ (k + 1) := by
          rw [Nat.div_lt_iff_lt_mul (by norm_num : (0:Nat) < 16)]
          calc n < 16 ^ (k + 1 + 1) := h
          _ = 16 ^ (k + 1) * 16 := by rw [pow_succ]
        have := ih fuel (n / 16) hdiv
        simp only [hexDigitsAux, if_neg h16, List.length_append, List.length_cons,
          List.length_nil]
        omega

theorem hexDigits_length_le {n : Nat} (h : n ≤ 0xFFFFF) : (hexDigits n).length ≤ 5 := by
  have : n < 16 ^ 5 := by omega
  exact hexDigitsAux_length_le 4 (n + 1) n (by omega)

theorem hex5_length {n : Nat} (h : n ≤ 0xFFFFF) : (hex5 n).length = 5 := by
  have := hexDigits_length_le h
  simp only [hex5, List.length_append, List.length_replicate]
  omega

theorem hexDigitChar_isHex {d : Nat} (h : d < 16) : isHexUp (hexDigitChar d) = true := by
  simp only [isHexUp, hexDigitChar]
  split <;> simp <;> omega

theorem hexDigitsAux_isHex : ∀ (fuel n : Nat), ∀ b ∈ hexDigitsAux fuel n, isHexUp b = true := by
  intro fuel
  induction fuel with
  | zero => intro n b hb; simp [hexDigitsAux] at hb
  | succ fuel ih =>
    intro n b hb
    by_cases h16 : n < 16
    · simp only [hexDigitsAux, if_pos h16, List.mem_singleton] at hb
      exact hb ▸ hexDigitChar_isHex h16
    · simp only [hexDigitsAux, if_neg h16, List.mem_append, List.mem_singleton] at hb
      rcases hb with hb | hb
      · exact ih (n / 16) b hb
      · exact hb ▸ hexDigitChar_isHex (Nat.mod_lt n (by norm_num))

theorem hex5_isHex (n : Nat) : ∀ b ∈ hex5 n, isHexUp b = true := by
  intro b hb
  simp only [hex5, List.mem_append, List.mem_replicate] at hb
  rcases hb with ⟨-, rfl⟩ | hb
  · rfl
  · exact hexDigitsAux_isHex (n + 1) n b hb

theorem hexVal_lt {b : Nat} (h : isHexUp b = true) : hexVal b < 16 := by
  simp only [isHexUp, Bool.or_eq_true, Bool.and_eq_true, decide_eq_true_eq] at h
  simp only [hexVal]
  split <;> omega

theorem hexListVal_foldl_lt :
    ∀ (bs : List Nat), (∀ b ∈ bs, isHexUp b = true) → ∀ (acc : Nat),
      bs.foldl (fun acc b => 16 * acc + hexVal b) acc < 16 ^ bs.length * (acc + 1) := by
  intro bs
  induction bs with
  | nil => intro _ acc; simp
  | cons b bs ih =>
    intro hall acc
    have hb : hexVal b < 16 := hexVal_lt (hall b (List.mem_cons_self b bs))
    have := ih (fun x hx => hall x (List.mem_cons_of_mem b hx)) (16 * acc + hexVal b)
    simp only [List.foldl_cons, List.length_cons]
    calc bs.foldl (fun acc b => 16 * acc + hexVal b) (16 * acc + hexVal b)
        < 16 ^ bs.length * (16 * acc + hexVal b + 1) := this
    _ ≤ 16 ^ bs.length * (16 * acc + 16) := by
        apply Nat.mul_le_mul_left
        omega
    _ = 16 ^ (bs.length + 1) * (acc + 1) := by ring
    _ ≤ 16 ^ (bs.length + 1) * (acc + 1) := le_refl _

theorem hexListVal_lt {bs : List Nat} (h : ∀ b ∈ bs, isHexUp b = true) :
    hexListVal bs < 16 ^ bs.length :=
  by simpa using hexListVal_foldl_lt bs h 0

theorem parseChecksum_lt {r : List Nat} {v : Nat} (h : parseChecksum r = some v) :
    v < 4294967296 := by
  simp only [parseChecksum] at h
  split at h
  · rename_i hcond
    simp only [Bool.and_eq_true, decide_eq_true_eq, beq_iff_eq] at hcond
    obtain ⟨⟨⟨hlen, -⟩, hhex⟩, -⟩ := hcond
    have hlen8 : ((r.drop 6).take 8).length = 8 := by
      simp [List.length_take, List.length_drop, hlen]
    have hbound := @hexListVal_lt ((r.drop 6).take 8) (by
      intro b hb
      exact (List.all_eq_true.mp hhex) b hb)
    rw [hlen8] at hbound
    have hv := Option.some.inj h
    omega
  · exact absurd h (by simp)

theorem reSearch_drop (m : MatcherAt) :
    ∀ (buffer : List Nat) (i : Nat) (r : List Nat × List (List Nat)),
      reSearch m buffer = some (i, r) → m (buffer.drop i) = some r := by
  intro buffer
  induction buffer with
  | nil =>
    intro i r h
    cases hm : m [] with
    | none => simp [reSearch, hm] at h
    | some r' =>
      simp only [reSearch, hm, Option.map_some', Option.some.injEq, Prod.mk.injEq] at h
      obtain ⟨rfl, rfl⟩ := h
      simpa using hm
  | cons b rest ih =>
    intro i r h
    cases hm : m (b :: rest) with
    | some r' =>
      simp only [reSearch, hm, Option.some.injEq, Prod.mk.injEq] at h
      obtain ⟨rfl, rfl⟩ := h
      simpa using hm
    | none =>
      simp only [reSearch, hm] at h
      cases hr : reSearch m rest with
      | none => rw [hr] at h; simp at h
      | some p =>
        rw [hr] at h
        obtain ⟨i', r'⟩ := p
        simp only [Option.map_some', Option.some.injEq, Prod.mk.injEq] at h
        obtain ⟨rfl, rfl⟩ := h
        simpa using ih i' r' hr

/-- C1: for every call of the pexpect-based expect primitive
(`DatamanS4._expect`, dms4util.py lines 68–73), if the leftmost match of
the pattern in the accumulated buffer begins at a positive offset — so
bytes precede the matched region even though the suffix from that offset
satisfies the pattern — the call fails with the stray-leading-bytes
protocol error (the `before == b''` anchoring assertion) instead of
returning captured groups. -/
theorem expect_rejects_leading_bytes (m : MatcherAt) (buffer : List Nat) (i : Nat)
    (r : List Nat × List (List Nat)) (h : reSearch m buffer = some (i, r)) (hi : 0 < i) :
    m (buffer.drop i) = some r ∧
    expectCall m buffer = .unexpectedResponse (buffer.take i) := by
  refine ⟨reSearch_drop m buffer i r h, ?_⟩
  simp [expectCall, h, Nat.pos_iff_ne_zero.mp hi]

theorem expect_rejects_leading_bytes_witness :
    promptMatcher (List.drop 1 [88, 13, 10, 62]) = some ([13, 10, 62], []) ∧
    expectCall promptMatcher [88, 13, 10, 62] = .unexpectedResponse (List.take 1 [88, 13, 10, 62]) :=
  expect_rejects_leading_bytes promptMatcher [88, 13, 10, 62] 1 ([13, 10, 62], [])
    (by rfl) (by decide)

/-- C2 counterexample: the synchronization of dms4util.py
(`DatamanS4.__init__`, lines 54–58) is the anchored pexpect expectation
of `'\r\n>'`, not a scan of whole read lines, and falsifies the
claimed iff in both directions: when the device emits `b'X\r\n'` and
then `b'>'` — so a read line does exactly equal `>` — the anchoring
assertion fails on the stray leading `X` instead of synchronizing; and
when it emits `b'\r\n'` and then `b'>ABC'` — so no read line equals
`>` — the expectation succeeds. -/
theorem sync_prompt_line_counterexample :
    ([88, 13, 10] ++ [62] = [88, 13, 10, 62] ∧ [62] ∈ [[88, 13, 10], [62]] ∧
      dms4_sync [88, 13, 10, 62] = .unexpectedResponse [88]) ∧
    ([13, 10] ++ [62, 65, 66, 67] = [13, 10, 62, 65, 66, 67] ∧
      [62] ∉ [[13, 10], [62, 65, 66, 67]] ∧
      dms4_sync [13, 10, 62, 65, 66, 67] = .matched []) := by
  decide

/-- C2 (amended): in dataman_s4_load_ram.py, after the interrupt byte
and carriage return are written, the synchronization loop of
`DatamanS4.__init__` (lines 60–68) succeeds if and only if at least one
line read before the first timed-out read exactly equals the
idle-prompt marker `>`, and otherwise raises the synchronization-failure
error advising the operator to reset the device by hand; in dms4util.py
(`DatamanS4.__init__`, lines 54–58) synchronization instead succeeds if
and only if the input accumulated after the flush begins with the
anchored prompt bytes `'\r\n>'`, regardless of the line structure of
that input. -/
theorem sync_reaches_iff (lines : List (List Nat)) (buffer : List Nat) :
    (synchronize lines).1 = [[27], [13]] ∧
    ((synchronize lines).2 = Except.ok () ↔
      ∃ l ∈ lines.takeWhile (fun l => l != []), l = [62]) ∧
    ((synchronize lines).2 ≠ Except.ok () →
      (synchronize lines).2 = Except.error (CommError.syncFailed syncAdvice)) ∧
    (dms4_sync buffer = .matched [] ↔ buffer.take 3 = [13, 10, 62]) := by
  refine ⟨rfl, ?_, ?_, ?_⟩
  · simp only [synchronize, drainLines_eq, Bool.false_or]
    by_cases h : (lines.takeWhile fun l => l != []).any (fun l => l == [62]) = true
    · simp only [h, if_true, true_iff]
      obtain ⟨l, hl, he⟩ := List.any_eq_true.mp h
      exact ⟨l, hl, by simpa using he⟩
    · simp only [h, if_false]
      constructor
      · intro hc; exact absurd hc (by simp)
      · intro ⟨l, hl, he⟩
        exact absurd (List.any_eq_true.mpr ⟨l, hl, by simpa using he⟩) h
  · simp only [synchronize]
    split <;> simp
  · constructor
    · intro h
      unfold dms4_sync expectCall at h
      cases hr : reSearch promptMatcher buffer with
      | none => rw [hr] at h; simp at h
      | some p =>
        obtain ⟨i, r⟩ := p
        rw [hr] at h
        simp only at h
        by_cases hi : i = 0
        · subst hi
          have hm := reSearch_drop promptMatcher buffer 0 r hr
          simp only [List.drop_zero] at hm
          simp only [promptMatcher] at hm
          split at hm
          · assumption
          · simp at hm
        · rw [if_neg hi] at h
          simp at h
    · intro h
      cases buffer with
      | nil => simp at h
      | cons b rest =>
        have hm : promptMatcher (b :: rest) = some ([13, 10, 62], []) := by
          simp [promptMatcher, h]
        simp [dms4_sync, expectCall, reSearch, hm]

/-- C4 counterexample: the verification step of dms4util.py `main`
(lines 219–222) compares the raw, unreduced byte sum, so for local data
whose sum is exactly 2^32 the claim's mod-2^32 comparison (which would
accept a reported checksum of 0) is violated: the assertion fails. -/
theorem dms4_checksum_unreduced :
    ((List.replicate 16843009 255 ++ [1]).sum % 4294967296 = 0) ∧
    dms4VerifyOk (List.replicate 16843009 255 ++ [1]) 0 = false := by
  have hsum : (List.replicate 16843009 255 ++ [1] : List Nat).sum = 4294967296 := by
    rw [List.sum_append, List.sum_replicate]
    norm_num
  constructor
  · rw [hsum]
  · unfold dms4VerifyOk
    rw [hsum]
    rfl

/-- C4 (amended): the verification step of dataman_s4_load_ram.py `main`
(lines 352–360) masks the local byte sum to its value modulo 2^32 and
reports success exactly when that value equals the device-reported
checksum, reporting a mismatch as the checksum-mismatch data-integrity
outcome (not a `CommunicationError`); the dms4util.py `main`
(lines 219–222) instead compares the raw unreduced sum. -/
theorem verify_uses_reduced_sum (data : List Nat) (ramChecksum : Nat) :
    data_checksum data = data.sum % 4294967296 ∧
    (verifyChecksum data ramChecksum = .ok ↔ data.sum % 4294967296 = ramChecksum) ∧
    (data.sum % 4294967296 ≠ ramChecksum →
      verifyChecksum data ramChecksum = .checksumMismatch ramChecksum (data.sum % 4294967296)) ∧
    (dms4VerifyOk data ramChecksum = true ↔ data.sum = ramChecksum) := by
  have hmask : data_checksum data = data.sum % 4294967296 := by
    have h := Nat.and_pow_two_sub_one_eq_mod data.sum 32
    norm_num at h
    simpa [data_checksum] using h
  refine ⟨hmask, ?_, ?_, ?_⟩
  · simp only [verifyChecksum, hmask]
    split <;> rename_i hcond <;> simp_all
  · intro hne
    simp only [verifyChecksum, hmask, if_pos hne]
  · simp [dms4VerifyOk]

/-- C7 counterexample: in dataman_s4_load_ram.py the checksum
acknowledgement read runs under the fixed 30-second timeout of
`get_ram_checksum` (line 288), which differs from the claimed
base-plus-size-proportional formula (with the default 0.3-second base
read timeout and the full 512 KiB range the formula yields 21.3 s). -/
theorem checksum_timeout_not_formula :
    loadRamChecksumTimeout ≠ dms4GetChecksumTimeout (3 / 10) (512 * 1024) := by
  unfold loadRamChecksumTimeout dms4GetChecksumTimeout
  norm_num

/-- C7 (amended): the deadline of the final expect of
`DatamanS4._get_checksum` in dms4util.py (lines 118–123) equals the base
read timeout plus size·21/(512·1024) seconds and is therefore monotone
in range size — for R1 contained in R2 the deadline for R1 is at most
that for R2 — while the checksum read timeout of dataman_s4_load_ram.py
is the range-independent constant 30 s. -/
theorem checksum_timeout_monotone (base : ℚ) (s1 e1 s2 e2 : Nat)
    (hs : s2 ≤ s1) (he : e1 ≤ e2) :
    dms4GetChecksumTimeout base (rangeSize s1 e1)
      ≤ dms4GetChecksumTimeout base (rangeSize s2 e2) ∧
    loadRamChecksumTimeout = 30 := by
  refine ⟨?_, rfl⟩
  have hsize : rangeSize s1 e1 ≤ rangeSize s2 e2 := by
    unfold rangeSize; omega
  have hcast : ((rangeSize s1 e1 : ℚ)) ≤ (rangeSize s2 e2 : ℚ) := by exact_mod_cast hsize
  unfold dms4GetChecksumTimeout
  have h21 : ((rangeSize s1 e1 : ℚ)) * 21 / (512 * 1024)
      ≤ (rangeSize s2 e2 : ℚ) * 21 / (512 * 1024) := by
    apply div_le_div_of_nonneg_right ?_ ?_ |>.trans_eq rfl
    · linarith
    · norm_num
  linarith

theorem checksum_timeout_monotone_witness :
    dms4GetChecksumTimeout (1 / 2) (rangeSize 1 1) ≤ dms4GetChecksumTimeout (1 / 2) (rangeSize 0 2) ∧
    loadRamChecksumTimeout = 30 :=
  checksum_timeout_monotone (1 / 2) 1 1 0 2 (by decide) (by decide)

/-! ## State-threading lemmas for the transport primitives -/

theorem swrite_tmo (b : List Nat) (s : Serial) : (swrite b s).timeout = s.timeout := rfl

theorem swrite_sent (b : List Nat) (s : Serial) : (swrite b s).sent = s.sent ++ [b] := rfl

theorem swrite_incoming (b : List Nat) (s : Serial) : (swrite b s).incoming = s.incoming := rfl

theorem sread_sent (size : Nat) (s : Serial) : (sread size s).2.sent = s.sent := by
  cases h : s.incoming <;> simp [sread, h]

theorem sread_tmo (size : Nat) (s : Serial) : (sread size s).2.timeout = s.timeout := by
  cases h : s.incoming <;> simp [sread, h]

theorem sreadline_sent (s : Serial) : (sreadline s).2.sent = s.sent := by
  cases h : s.incoming <;> simp [sreadline, h]

theorem sreadline_tmo (s : Serial) : (sreadline s).2.timeout = s.timeout := by
  cases h : s.incoming <;> simp [sreadline, h]

theorem sreadUntil_sent (e : List Nat) (n : Nat) (s : Serial) :
    (sreadUntil e n s).2.sent = s.sent := by
  cases h : s.incoming <;> simp [sreadUntil, h]

theorem sreadUntil_tmo (e : List Nat) (n : Nat) (s : Serial) :
    (sreadUntil e n s).2.timeout = s.timeout := by
  cases h : s.incoming <;> simp [sreadUntil, h]

theorem ffLoop_tmo (ff : FileFormat) (framing : List Nat) :
    ∀ (fuel : Nat) (s : Serial), (ffLoop ff framing fuel s).2.timeout = s.timeout := by
  intro fuel
  induction fuel with
  | zero => intro s; rfl
  | succ fuel ih =>
    intro s
    simp only [ffLoop]
    split
    · split <;> simp [sreadUntil_tmo, swrite_tmo, sread_tmo]
    · split
      · rw [ih]; simp [swrite_tmo, sread_tmo]
      · simp [swrite_tmo, sread_tmo]

theorem set_file_format_tmo (ff : FileFormat) (s : Serial) :
    (set_file_format ff s).2.timeout = s.timeout := by
  simp only [set_file_format]
  split
  · rw [ffLoop_tmo]; simp [sreadline_tmo, swrite_tmo]
  · simp [sreadline_tmo, swrite_tmo]

theorem set_start_end_tmo (start endAddr : Nat) (s : Serial) :
    (set_start_end start endAddr s).2.timeout = s.timeout := by
  simp only [set_start_end]
  split
  · split <;> simp [sread_tmo, swrite_tmo]
  · simp [sread_tmo]

/-- C3: both session operations that override the transport's read
timeout — binary receive (`set_ram`, which raises it to 80 s around its
completion read, dataman_s4_load_ram.py lines 256–259) and RAM checksum
(`get_ram_checksum`, which raises it to 30 s around its acknowledgement
read, lines 287–290) — restore the prior value before returning on every
exit path, success and error alike: for every device behaviour the
transport timeout after the call equals the timeout before it.
(Transport reads follow the §4.1 contract: they return bytes, possibly
none, rather than raising.) -/
theorem timeout_restored (sess : Session) (data : List Nat) (start? : Option Nat)
    (start2? end2? : Option Nat) (s s2 : Serial) :
    (set_ram sess data start? s).2.timeout = s.timeout ∧
    (get_ram_checksum sess start2? end2? s2).2.timeout = s2.timeout := by
  constructor
  · simp only [set_ram]
    split
    · rw [set_file_format_tmo]
    · split
      · split
        · rw [set_start_end_tmo, sreadline_tmo, swrite_tmo, set_file_format_tmo]
        · split
          · split <;>
              simp [swrite_tmo, sread_tmo, set_start_end_tmo, sreadline_tmo,
                set_file_format_tmo]
          · simp [sread_tmo, swrite_tmo, set_start_end_tmo, sreadline_tmo,
              set_file_format_tmo]
      · rw [sreadline_tmo, swrite_tmo, set_file_format_tmo]
  · simp only [get_ram_checksum]
    split
    · split
      · rw [set_start_end_tmo, sreadline_tmo, swrite_tmo]
      · split
        · split <;>
            simp [sreadUntil_tmo, swrite_tmo, set_start_end_tmo, sreadline_tmo]
        · simp [swrite_tmo, set_start_end_tmo, sreadline_tmo]
    · rw [sreadline_tmo, swrite_tmo]

/-- C5: for addresses start ≤ end ≤ 0xFFFFF, the bulk-mode negotiation
`DatamanS4._set_start_end` of dataman_s4_load_ram.py (lines 209–229),
once the 26-byte placeholder read matches, writes exactly the ten
uppercase-hex ASCII bytes of the concatenated 5-digit fields in one
write, and then succeeds if and only if the echo read back equals the
two comma-separated 5-digit fields followed by a backspace byte; any
other echo raises the unexpected-response error carrying the offending
bytes. -/
theorem bulk_range_negotiation (start endAddr : Nat) (r1 r2 : List Nat)
    (rest : List (List Nat)) (t : ℚ) (snt : List (List Nat))
    (hse : start ≤ endAddr) (hend : endAddr ≤ 0xFFFFF)
    (hp : parmsEchoOk (r1.take 26) = true) :
    (hex5 start ++ hex5 endAddr).length = 10 ∧
    (hex5 start ++ hex5 endAddr).all isHexUp = true ∧
    (set_start_end start endAddr ⟨r1 :: r2 :: rest, t, snt⟩).2.sent
      = snt ++ [hex5 start ++ hex5 endAddr] ∧
    ((set_start_end start endAddr ⟨r1 :: r2 :: rest, t, snt⟩).1 = .ok () ↔
      r2.take 12 = hex5 start ++ [44] ++ hex5 endAddr ++ [8]) ∧
    (r2.take 12 ≠ hex5 start ++ [44] ++ hex5 endAddr ++ [8] →
      (set_start_end start endAddr ⟨r1 :: r2 :: rest, t, snt⟩).1
        = .error (.unexpectedResponse (r2.take 12))) := by
  have h5s : (hex5 start).length = 5 := hex5_length (le_trans hse hend)
  have h5e : (hex5 endAddr).length = 5 := hex5_length hend
  have hexp : (hex5 start ++ [44] ++ hex5 endAddr ++ [8]).length = 12 := by
    simp [h5s, h5e]
  refine ⟨by simp [h5s, h5e], ?_, ?_, ?_, ?_⟩
  · rw [List.all_eq_true]
    intro b hb
    rcases List.mem_append.mp hb with hb | hb
    · exact hex5_isHex start b hb
    · exact hex5_isHex endAddr b hb
  · simp only [set_start_end, sread, hp, if_true, hexp, swrite_incoming, swrite_sent,
      swrite_tmo, swrite]
    split <;> rfl
  · simp only [set_start_end, sread, hp, if_true, hexp, swrite_incoming, swrite_sent,
      swrite_tmo, swrite]
    rw [List.append_assoc, List.append_assoc, List.singleton_append]
    by_cases h : r2.take 12 = hex5 start ++ (44 :: (hex5 endAddr ++ [8]))
    · rw [if_pos h]
      simp [h]
    · rw [if_neg h]
      simp [h]
  · intro h
    simp only [set_start_end, sread, hp, if_true, hexp, swrite_incoming, swrite_sent,
      swrite_tmo, swrite]
    rw [List.append_assoc, List.append_assoc, List.singleton_append] at h ⊢
    rw [if_neg h]

theorem bulk_range_negotiation_witness :
    (hex5 0 ++ hex5 2047).length = 10 ∧
    (hex5 0 ++ hex5 2047).all isHexUp = true ∧
    (set_start_end 0 2047 ⟨(asciiBytes "00000,7FFFF," ++ [8, 32] ++ List.replicate 12 8) ::
        (asciiBytes "00000,007FF" ++ [8]) :: [], 0, []⟩).2.sent
      = [] ++ [hex5 0 ++ hex5 2047] ∧
    ((set_start_end 0 2047 ⟨(asciiBytes "00000,7FFFF," ++ [8, 32] ++ List.replicate 12 8) ::
        (asciiBytes "00000,007FF" ++ [8]) :: [], 0, []⟩).1 = .ok () ↔
      (asciiBytes "00000,007FF" ++ [8]).take 12 = hex5 0 ++ [44] ++ hex5 2047 ++ [8]) ∧
    ((asciiBytes "00000,007FF" ++ [8]).take 12 ≠ hex5 0 ++ [44] ++ hex5 2047 ++ [8] →
      (set_start_end 0 2047 ⟨(asciiBytes "00000,7FFFF," ++ [8, 32] ++ List.replicate 12 8) ::
          (asciiBytes "00000,007FF" ++ [8]) :: [], 0, []⟩).1
        = .error (.unexpectedResponse ((asciiBytes "00000,007FF" ++ [8]).take 12))) :=
  bulk_range_negotiation 0 2047 (asciiBytes "00000,7FFFF," ++ [8, 32] ++ List.replicate 12 8)
    (asciiBytes "00000,007FF" ++ [8]) [] 0 [] (by decide) (by decide) (by decide)

/-! ## File-format cycling lemmas -/

theorem ffValue_take9 (f : FileFormat) : f.value.take 9 = f.value := by
  cases f <;> rfl

theorem ffValue_inj {f g : FileFormat} (h : f.value = g.value) : f = g := by
  cases f <;> cases g <;> first | rfl | exact absurd h (by decide)

theorem mem_allFileFormats (f : FileFormat) : f ∈ allFileFormats := by
  cases f <;> decide

theorem ffLoop_all_wrong (ff : FileFormat) (framing : List Nat) :
    ∀ (fs : List FileFormat) (rest : List (List Nat)) (t : ℚ) (snt : List (List Nat)),
      (∀ f ∈ fs, f ≠ ff) →
      ffLoop ff framing fs.length ⟨fs.map FileFormat.value ++ rest, t, snt⟩
        = (.error .notFound, ⟨rest, t, snt ++ List.replicate fs.length [32]⟩) := by
  intro fs
  induction fs with
  | nil => intro rest t snt h; simp [ffLoop]
  | cons f fs ih =>
    intro rest t snt h
    have hne : f ≠ ff := h f (List.mem_cons_self f fs)
    have hval : ¬(f.value.take 9 = ff.value) := by
      rw [ffValue_take9]
      intro hv
      exact hne (ffValue_inj hv)
    have hmem : f.value.take 9 ∈ allFileFormats.map FileFormat.value := by
      rw [ffValue_take9]
      exact List.mem_map.mpr ⟨f, mem_allFileFormats f, rfl⟩
    simp only [List.length_cons, List.map_cons, List.cons_append, ffLoop, sread,
      if_neg hval, if_pos hmem, swrite]
    rw [ih rest t (snt ++ [[32]]) (fun g hg => h g (List.mem_cons_of_mem f hg))]
    congr 1
    simp [List.replicate_succ]

/-- C9 counterexample: a device reply that is not any recognized format
token makes `set_file_format` fail immediately with the
unexpected-response error, not the claimed not-found error, even though
the requested token was never echoed within the candidate reads. -/
theorem format_cycling_garbage_reply :
    (set_file_format .BINARY ⟨[asciiBytes "FF\r>FILE FORMAT\r\n", List.replicate 9 48],
        0, []⟩).1
      = .error (.unexpectedResponse (asciiBytes "FF\r>FILE FORMAT\r\n")) ∧
    (set_file_format .BINARY ⟨[asciiBytes "FF\r>FILE FORMAT\r\n", List.replicate 9 48],
        0, []⟩).1 ≠ .error .notFound ∧
    List.replicate 9 48 ≠ FileFormat.BINARY.value := by
  refine ⟨by rfl, ?_, by decide⟩
  show Except.error (CommError.unexpectedResponse (asciiBytes "FF\r>FILE FORMAT\r\n"))
      ≠ (Except.error CommError.notFound : Except CommError Unit)
  intro h
  exact CommError.noConfusion (Except.error.inj h)

/-- C9 (amended): file-format selection reads at most N = 5 candidate
tokens, where 5 is the size of the `FileFormat` enumeration; when the
five candidate reads are all valid format tokens other than the
requested one, it fails with the not-found error without reading any
further input; a reply that is not a recognized token instead fails at
once with the unexpected-response error
(`set_file_format`, dataman_s4_load_ram.py lines 190–207). -/
theorem format_cycling_bounded (ff f1 f2 f3 f4 f5 : FileFormat)
    (rest : List (List Nat)) (t : ℚ) (snt : List (List Nat))
    (h1 : f1 ≠ ff) (h2 : f2 ≠ ff) (h3 : f3 ≠ ff) (h4 : f4 ≠ ff) (h5 : f5 ≠ ff) :
    allFileFormats.length = 5 ∧
    set_file_format ff ⟨asciiBytes "FF\r>FILE FORMAT\r\n" ::
        f1.value :: f2.value :: f3.value :: f4.value :: f5.value :: rest, t, snt⟩
      = (.error .notFound, ⟨rest, t, snt ++ [[70, 70]] ++ List.replicate 5 [32]⟩) := by
  refine ⟨rfl, ?_⟩
  have hall : ∀ f ∈ [f1, f2, f3, f4, f5], f ≠ ff := by
    intro f hf
    simp only [List.mem_cons, List.not_mem_nil, or_false] at hf
    rcases hf with rfl | rfl | rfl | rfl | rfl <;> assumption
  have key := ffLoop_all_wrong ff (asciiBytes "FF\r>FILE FORMAT\r\n")
    [f1, f2, f3, f4, f5] rest t (snt ++ [[70, 70]]) hall
  simp only [set_file_format, sreadline, swrite]
  simp only [List.map_cons, List.map_nil, List.length_cons, List.length_nil] at key
  simpa [List.append_assoc] using key

theorem format_cycling_bounded_witness :
    allFileFormats.length = 5 ∧
    set_file_format .BINARY ⟨asciiBytes "FF\r>FILE FORMAT\r\n" ::
        FileFormat.ASCII.value :: FileFormat.ASCII.value :: FileFormat.ASCII.value ::
        FileFormat.ASCII.value :: FileFormat.ASCII.value :: [], 0, []⟩
      = (.error .notFound, ⟨[], 0, [] ++ [[70, 70]] ++ List.replicate 5 [32]⟩) :=
  format_cycling_bounded .BINARY .ASCII .ASCII .ASCII .ASCII .ASCII [] 0 []
    (by decide) (by decide) (by decide) (by decide) (by decide)

/-! ## Per-character negotiation lemmas -/

theorem sendDigits_all_true (ds : List Nat) :
    ∀ (k : Nat) (tr : List Event),
      sendDigits ds ⟨List.replicate (ds.length + k) true, tr⟩
        = some ⟨List.replicate k true, tr ++ digitEvents ds⟩ := by
  induction ds with
  | nil => intro k tr; simp [sendDigits, digitEvents]
  | cons c cs ih =>
    intro k tr
    rw [show (c :: cs).length + k = (cs.length + k) + 1 from by simp; omega,
      List.replicate_succ]
    simp only [sendDigits, doSend, doExpect, if_true, Option.some_bind]
    rw [ih k (tr ++ [Event.sent [c]] ++ [Event.expected (Pat.lit true [c])])]
    simp [digitEvents, List.append_assoc]

/-- C6: in the per-character negotiation `DatamanS4._set_start_end` of
dms4util.py (lines 132–147), after the placeholder expectation each of
the five hex digits of the start address and then each of the five hex
digits of the end address is written to the transport with its
individual anchored echo expected before the next digit is sent (the
comma echo separating the two fields); after all ten digits the
negotiation ends by sending a carriage return and expecting its echo,
which starts the operation. -/
theorem per_char_negotiation (memStart memEnd : Nat)
    (h1 : memStart ≤ 0xFFFFF) (h2 : memEnd ≤ 0xFFFFF) :
    (hex5 memStart).length = 5 ∧ (hex5 memEnd).length = 5 ∧
    dms4_set_start_end memStart memEnd (List.replicate 14 true)
      = some ([Event.expected .startEndPlaceholder] ++ digitEvents (hex5 memStart)
          ++ [Event.expected (.lit false [44])] ++ digitEvents (hex5 memEnd)
          ++ [Event.expected (.lit true [8]), Event.sent [13],
              Event.expected (.lit true [13])]) := by
  have h5s := hex5_length h1
  have h5e := hex5_length h2
  refine ⟨h5s, h5e, ?_⟩
  simp only [dms4_set_start_end]
  rw [show (14 : Nat) = ((hex5 memStart).length + 8) + 1 from by omega,
    List.replicate_succ]
  simp only [doExpect, if_true, Option.some_bind]
  rw [sendDigits_all_true]
  simp only [Option.some_bind]
  rw [show (8 : Nat) = ((hex5 memEnd).length + 2) + 1 from by omega,
    List.replicate_succ]
  simp only [doExpect, if_true, Option.some_bind]
  rw [sendDigits_all_true]
  simp only [Option.some_bind]
  simp [doExpect, doSend, List.append_assoc]

theorem per_char_negotiation_witness :
    (hex5 0).length = 5 ∧ (hex5 2047).length = 5 ∧
    dms4_set_start_end 0 2047 (List.replicate 14 true)
      = some ([Event.expected .startEndPlaceholder] ++ digitEvents (hex5 0)
          ++ [Event.expected (.lit false [44])] ++ digitEvents (hex5 2047)
          ++ [Event.expected (.lit true [8]), Event.sent [13],
              Event.expected (.lit true [13])]) :=
  per_char_negotiation 0 2047 (by decide) (by decide)

/-- C10: whenever `DatamanS4.get_ram_checksum`
(dataman_s4_load_ram.py lines 266–305) returns a value rather than
raising, that value was parsed from exactly eight uppercase hexadecimal
digits of the device's `SUM = XXXXXXXX` reply and is therefore strictly
less than 2^32; every reply of any other shape raises the
communication error instead. -/
theorem checksum_value_in_range (sess : Session) (start? end? : Option Nat) (s : Serial)
    (v : Nat) (h : (get_ram_checksum sess start? end? s).1 = .ok v) : v < 4294967296 := by
  simp only [get_ram_checksum] at h
  split at h
  · split at h
    · simp at h
    · split at h
      · split at h
        · rename_i v' hparse
          have hlt := parseChecksum_lt hparse
          have hv := Except.ok.inj h
          omega
        · simp at h
      · simp at h
  · simp at h

theorem checksum_value_in_range_witness : (133693440 : Nat) < 4294967296 :=
  checksum_value_in_range ⟨0, 0x7FFFF⟩ none none
    ⟨[asciiBytes "CH\r>CHECKSUM RAM\r\n",
      asciiBytes "00000,7FFFF," ++ [8, 32] ++ List.replicate 12 8,
      asciiBytes "00000,7FFFF" ++ [8],
      [13, 13, 10],
      asciiBytes "SUM = 07F80000\r\n>"], 0, []⟩ 133693440 (by rfl)

/-! ## Success-trace lemmas for binary receive -/

theorem ffLoop_ok_sent (ff : FileFormat) (framing : List Nat) :
    ∀ (fuel : Nat) (s : Serial), (ffLoop ff framing fuel s).1 = .ok () →
      ∃ k, (ffLoop ff framing fuel s).2.sent
        = s.sent ++ List.replicate k [32] ++ [[13]] := by
  intro fuel
  induction fuel with
  | zero => intro s h; simp [ffLoop] at h
  | succ fuel ih =>
    intro s h
    simp only [ffLoop] at h ⊢
    by_cases hc1 : (sread 9 s).1 = ff.value
    · rw [if_pos hc1] at h ⊢
      by_cases hc2 : (sreadUntil [62] 32 (swrite [13] (sread 9 s).2)).1 = [13, 10, 62]
      · rw [if_pos hc2] at h ⊢
        refine ⟨0, ?_⟩
        simp [sreadUntil_sent, swrite_sent, sread_sent]
      · rw [if_neg hc2] at h
        simp at h
    · rw [if_neg hc1] at h ⊢
      by_cases hc3 : (sread 9 s).1 ∈ allFileFormats.map FileFormat.value
      · rw [if_pos hc3] at h ⊢
        obtain ⟨k, hk⟩ := ih (swrite [32] (sread 9 s).2) h
        refine ⟨k + 1, ?_⟩
        rw [hk, swrite_sent, sread_sent]
        simp [List.replicate_succ]
      · rw [if_neg hc3] at h
        simp at h

theorem set_file_format_ok_sent (ff : FileFormat) (s : Serial)
    (h : (set_file_format ff s).1 = .ok ()) :
    ∃ k, (set_file_format ff s).2.sent
      = s.sent ++ [[70, 70]] ++ List.replicate k [32] ++ [[13]] := by
  simp only [set_file_format] at h ⊢
  by_cases hc : (sreadline (swrite [70, 70] s)).1 = asciiBytes "FF\r>FILE FORMAT\r\n"
  · rw [if_pos hc] at h ⊢
    obtain ⟨k, hk⟩ := ffLoop_ok_sent ff _ allFileFormats.length _ h
    refine ⟨k, ?_⟩
    rw [hk, sreadline_sent, swrite_sent]
  · rw [if_neg hc] at h
    simp at h

theorem set_start_end_ok_sent (start endAddr : Nat) (s : Serial)
    (h : (set_start_end start endAddr s).1 = .ok ()) :
    (set_start_end start endAddr s).2.sent = s.sent ++ [hex5 start ++ hex5 endAddr] := by
  simp only [set_start_end] at h ⊢
  by_cases hc : parmsEchoOk (sread 26 s).1 = true
  · rw [if_pos hc] at h ⊢
    split <;> simp [sread_sent, swrite_sent]
  · rw [if_neg hc] at h
    simp at h

theorem set_ram_ok_sent (sess : Session) (data : List Nat) (start : Nat) (s : Serial)
    (hok : (set_ram sess data (some start) s).1 = .ok ()) :
    (set_file_format FileFormat.BINARY s).1 = .ok () ∧
    ∃ k, (set_ram sess data (some start) s).2.sent
      = s.sent ++ [[70, 70]] ++ List.replicate k [32] ++ [[13]] ++ [[82, 69]]
        ++ [hex5 start ++ hex5 (start + data.length - 1)] ++ [[13]] ++ [data] := by
  simp only [set_ram, Option.getD_some] at hok ⊢
  rcases hff : (set_file_format FileFormat.BINARY s).1 with e | u
  · rw [hff] at hok
    simp at hok
  · cases u
    simp only [hff] at hok ⊢
    obtain ⟨k, hffsent⟩ := set_file_format_ok_sent FileFormat.BINARY s hff
    by_cases hc1 : (sreadline (swrite [82, 69] (set_file_format FileFormat.BINARY s).2)).1
        = asciiBytes "RE\r>RECEIVE BINARY  \r\n"
    · rw [if_pos hc1] at hok ⊢
      rcases hsse : (set_start_end start (start + data.length - 1)
          (sreadline (swrite [82, 69] (set_file_format FileFormat.BINARY s).2)).2).1
          with e2 | u2
      · rw [hsse] at hok
        simp at hok
      · cases u2
        simp only [hsse] at hok ⊢
        have hssesent := set_start_end_ok_sent start (start + data.length - 1)
          (sreadline (swrite [82, 69] (set_file_format FileFormat.BINARY s).2)).2 hsse
        by_cases hc2 : (sread 1 (swrite [13] (set_start_end start (start + data.length - 1)
            (sreadline (swrite [82, 69] (set_file_format FileFormat.BINARY s).2)).2).2)).1
            = [13]
        · rw [if_pos hc2] at hok ⊢
          by_cases hc3 : (sreadUntil [62] 32
              { swrite data (sread 1 (swrite [13] (set_start_end start
                  (start + data.length - 1) (sreadline (swrite [82, 69]
                  (set_file_format FileFormat.BINARY s).2)).2).2)).2
                with timeout := 80 }).1 = [13, 10, 62]
          · rw [if_pos hc3]
            refine ⟨trivial, k, ?_⟩
            simp only [sreadUntil_sent, swrite_sent, sread_sent, hssesent,
              sreadline_sent, hffsent]
          · rw [if_neg hc3] at hok
            simp at hok
        · rw [if_neg hc2] at hok
          simp at hok
    · rw [if_neg hc1] at hok
      simp at hok

/-- C8: `DatamanS4.set_ram` (dataman_s4_load_ram.py lines 231–264),
the write-image operation: an omitted `start` defaults to the device's
native start address (same run as passing it explicitly); the end
address is `start + len(data) - 1` (so a 2048-byte image at 0x00000
negotiates end 0x007FF); on success the wire trace shows the BINARY
file-format selection (`FF` is the first chunk written) before the
binary-receive invocation (`RE`), the ten-byte range write for
`(start, start + len(data) - 1)`, and the image bytes as the final
chunk; the ok value is `()` — the operation returns nothing. -/
theorem write_image_spec (sess : Session) (data : List Nat) (start : Nat) (s : Serial)
    (hok : (set_ram sess data (some start) s).1 = .ok ()) :
    set_ram sess data none s = set_ram sess data (some sess.start) s ∧
    hex5 (0 + 2048 - 1) = asciiBytes "007FF" ∧
    (set_file_format FileFormat.BINARY s).1 = .ok () ∧
    ((set_ram sess data (some start) s).2.sent.drop s.sent.length).head? = some [70, 70] ∧
    [82, 69] ∈ (set_ram sess data (some start) s).2.sent.drop s.sent.length ∧
    (hex5 start ++ hex5 (start + data.length - 1))
      ∈ (set_ram sess data (some start) s).2.sent.drop s.sent.length ∧
    ((set_ram sess data (some start) s).2.sent).getLast? = some data := by
  obtain ⟨hffok, k, hsent⟩ := set_ram_ok_sent sess data start s hok
  have hT : (set_ram sess data (some start) s).2.sent
      = s.sent ++ ([[70, 70]] ++ (List.replicate k [32] ++ ([[13]] ++ ([[82, 69]]
        ++ ([hex5 start ++ hex5 (start + data.length - 1)] ++ ([[13]] ++ [data])))))) := by
    rw [hsent]
    simp [List.append_assoc]
  refine ⟨rfl, by decide, hffok, ?_, ?_, ?_, ?_⟩
  · rw [hT, List.drop_left]
    rfl
  · rw [hT, List.drop_left]
    simp
  · rw [hT, List.drop_left]
    simp
  · rw [hsent, List.getLast?_concat]

theorem write_image_spec_witness :
    set_ram ⟨0, 0x7FFFF⟩ [1, 2, 3, 4] none
        ⟨[asciiBytes "FF\r>FILE FORMAT\r\n", FileFormat.BINARY.value, [13, 10, 62],
          asciiBytes "RE\r>RECEIVE BINARY  \r\n",
          asciiBytes "00000,7FFFF," ++ [8, 32] ++ List.replicate 12 8,
          asciiBytes "00002,00005" ++ [8], [13], [13, 10, 62]], 0, []⟩
      = set_ram ⟨0, 0x7FFFF⟩ [1, 2, 3, 4] (some (Session.start ⟨0, 0x7FFFF⟩))
        ⟨[asciiBytes "FF\r>FILE FORMAT\r\n", FileFormat.BINARY.value, [13, 10, 62],
          asciiBytes "RE\r>RECEIVE BINARY  \r\n",
          asciiBytes "00000,7FFFF," ++ [8, 32] ++ List.replicate 12 8,
          asciiBytes "00002,00005" ++ [8], [13], [13, 10, 62]], 0, []⟩ ∧
    hex5 (0 + 2048 - 1) = asciiBytes "007FF" ∧
    (set_file_format FileFormat.BINARY
        ⟨[asciiBytes "FF\r>FILE FORMAT\r\n", FileFormat.BINARY.value, [13, 10, 62],
          asciiBytes "RE\r>RECEIVE BINARY  \r\n",
          asciiBytes "00000,7FFFF," ++ [8, 32] ++ List.replicate 12 8,
          asciiBytes "00002,00005" ++ [8], [13], [13, 10, 62]], 0, []⟩).1 = .ok () ∧
    ((set_ram ⟨0, 0x7FFFF⟩ [1, 2, 3, 4] (some 2)
        ⟨[asciiBytes "FF\r>FILE FORMAT\r\n", FileFormat.BINARY.value, [13, 10, 62],
          asciiBytes "RE\r>RECEIVE BINARY  \r\n",
          asciiBytes "00000,7FFFF," ++ [8, 32] ++ List.replicate 12 8,
          asciiBytes "00002,00005" ++ [8], [13], [13, 10, 62]], 0, []⟩).2.sent.drop
        ([] : List (List Nat)).length).head? = some [70, 70] ∧
    [82, 69] ∈ (set_ram ⟨0, 0x7FFFF⟩ [1, 2, 3, 4] (some 2)
        ⟨[asciiBytes "FF\r>FILE FORMAT\r\n", FileFormat.BINARY.value, [13, 10, 62],
          asciiBytes "RE\r>RECEIVE BINARY  \r\n",
          asciiBytes "00000,7FFFF," ++ [8, 32] ++ List.replicate 12 8,
          asciiBytes "00002,00005" ++ [8], [13], [13, 10, 62]], 0, []⟩).2.sent.drop
        ([] : List (List Nat)).length ∧
    (hex5 2 ++ hex5 (2 + ([1, 2, 3, 4] : List Nat).length - 1))
      ∈ (set_ram ⟨0, 0x7FFFF⟩ [1, 2, 3, 4] (some 2)
        ⟨[asciiBytes "FF\r>FILE FORMAT\r\n", FileFormat.BINARY.value, [13, 10, 62],
          asciiBytes "RE\r>RECEIVE BINARY  \r\n",
          asciiBytes "00000,7FFFF," ++ [8, 32] ++ List.replicate 12 8,
          asciiBytes "00002,00005" ++ [8], [13], [13, 10, 62]], 0, []⟩).2.sent.drop
        ([] : List (List Nat)).length ∧
    ((set_ram ⟨0, 0x7FFFF⟩ [1, 2, 3, 4] (some 2)
        ⟨[asciiBytes "FF\r>FILE FORMAT\r\n", FileFormat.BINARY.value, [13, 10, 62],
          asciiBytes "RE\r>RECEIVE BINARY  \r\n",
          asciiBytes "00000,7FFFF," ++ [8, 32] ++ List.replicate 12 8,
          asciiBytes "00002,00005" ++ [8], [13], [13, 10, 62]], 0, []⟩).2.sent).getLast?
      = some [1, 2, 3, 4] := by
  have h := write_image_spec ⟨0, 0x7FFFF⟩ [1, 2, 3, 4] 2
    ⟨[asciiBytes "FF\r>FILE FORMAT\r\n", FileFormat.BINARY.value, [13, 10, 62],
      asciiBytes "RE\r>RECEIVE BINARY  \r\n",
      asciiBytes "00000,7FFFF," ++ [8, 32] ++ List.replicate 12 8,
      asciiBytes "00002,00005" ++ [8], [13], [13, 10, 62]], 0, []⟩ (by rfl)
  exact h
